import Mathlib

/-!
Shallow embedding of the environment-detection and configuration subsystem of
signac-flow (files `flow/environment.py` and `flow/util/config.py`), together
with theorems settling the specification claims about it.

Conventions of the embedding:
* Python classmethod dispatch is modelled by records of functions (`Env`);
  each `ComputeEnvironment` subclass of the source becomes one `Env` value.
* Python exceptions are modelled with `Except PyErr`.
* `re.match(pattern, host)` (anchored-at-start matching) is modelled for
  literal patterns as the pattern being an initial segment of the host name;
  no claim depends on regex metacharacters, only on whether a pattern matches
  or not.
* The mutable class registry filled by the `ComputeEnvironmentType` metaclass
  is modelled by an explicit ordered list of `Env` values; the state of the
  registry after `flow/environment.py` is loaded is `module_registry`.
-/

/-- Python exceptions observable in this excerpt. -/
inductive PyErr where
  | keyError (key : String)
  | typeError
  | attributeError (msg : String)
  | configKeyError (key : String)
deriving DecidableEq, Repr

/-- The scheduler driver variants referenced by `flow/environment.py`
(`scheduler.FakeScheduler`, `scheduler.TorqueScheduler`,
`scheduler.SlurmScheduler`); the drivers themselves are external
collaborators. -/
inductive SchedulerType where
  | fake
  | torque
  | slurm
deriving DecidableEq, Repr

/-- `manage.JobStatus.submitted`, the only member of the external
`flow.manage` module used here. -/
inductive JobStatus where
  | submitted
deriving DecidableEq, Repr

/-- The command-wrapping rules a `JobScript` reads off its parent environment
class: `mpi_cmd` (an attribute no environment class of this excerpt defines,
hence `none` for all of them) and the static method `bg`. -/
structure EnvCmdRules where
  mpi_cmd : Option (String → Nat → String)
  bg : String → String

/-- `JobScript.eol`. -/
def JobScript.eol : String := "\n"

/-- `JobScript`: a `StringIO` buffer holding the accumulated text, bound to
its parent environment class (of which only the command-wrapping attributes
are consulted by the buffer's methods). -/
structure JobScript where
  parent : EnvCmdRules
  content : String

/-- `StringIO.write`: append text to the buffer. -/
def JobScript.write (js : JobScript) (s : String) : JobScript :=
  ⟨js.parent, js.content ++ s⟩

/-- `JobScript.writeline`: write one line followed by `eol`. -/
def JobScript.writeline (js : JobScript) (line : String) : JobScript :=
  js.write (line ++ JobScript.eol)

/-- `JobScript.write_cmd(cmd, np, bg)`: when `np > 1` the command is first
replaced by `self._parent.mpi_cmd(cmd, np=np)` — an `AttributeError` when the
parent class has no `mpi_cmd` attribute — then, when `bg` is set, wrapped by
`self._parent.bg`, and finally written with `writeline`. -/
def JobScript.write_cmd (js : JobScript) (cmd : String) (np : Nat) (bg : Bool) :
    Except PyErr JobScript :=
  match (if np > 1 then
          match js.parent.mpi_cmd with
          | some f => Except.ok (f cmd np)
          | none => Except.error (PyErr.attributeError "mpi_cmd")
         else Except.ok cmd) with
  | Except.error e => Except.error e
  | Except.ok c1 => Except.ok (js.writeline (if bg then js.parent.bg c1 else c1))

/-- `ComputeEnvironment.bg`: wrap a command to be executed in the background. -/
def ComputeEnvironment.bg (cmd : String) : String := cmd ++ " &"

/-- The command-wrapping attributes every environment class of this excerpt
exposes: no `mpi_cmd` attribute anywhere in the class hierarchy, and the
inherited `bg` static method. -/
def base_rules : EnvCmdRules := ⟨none, ComputeEnvironment.bg⟩

/-- Model of `re.match(pattern, host) is not None` for the literal patterns
this excerpt manipulates: anchored-at-start matching, i.e. the pattern text
is an initial segment of the host name. -/
def re_match (pattern host : String) : Bool := pattern.data.isPrefixOf host.data

/-- One environment class: its name, its `hostname_pattern` and
`scheduler_type` class attributes (`none` covers both an attribute set to
`None` and an absent attribute, which `get_scheduler` treats alike), and its
`is_present` and `script` classmethods together with the command-wrapping
attributes read by `JobScript`. -/
structure Env where
  name : String
  hostname_pattern : Option String
  scheduler_type : Option SchedulerType
  is_present : String → Bool
  rules : EnvCmdRules
  script : List (String × String) → JobScript

/-- `ComputeEnvironment.is_present`: false when `hostname_pattern` is `None`,
otherwise whether the pattern matches the current hostname. -/
def ComputeEnvironment.is_present (pattern : Option String) (hostname : String) : Bool :=
  match pattern with
  | none => false
  | some p => re_match p hostname

/-- `ComputeEnvironment.script`: return a fresh empty `JobScript` bound to the
class (the keyword options are ignored by the base implementation). -/
def ComputeEnvironment.script (rules : EnvCmdRules) (kwargs : List (String × String)) :
    JobScript :=
  ⟨rules, ""⟩

/-- Build an environment class that overrides nothing of the base class
behaviour except the listed class attributes, exactly as the plain subclasses
of `ComputeEnvironment` do. -/
def mkBaseEnv (name : String) (pattern : Option String) (sched : Option SchedulerType) : Env :=
  ⟨name, pattern, sched, ComputeEnvironment.is_present pattern, base_rules,
    ComputeEnvironment.script base_rules⟩

/-- `ComputeEnvironment.get_scheduler`: `getattr(cls, 'scheduler_type')()`;
both a missing attribute (`AttributeError`) and `scheduler_type = None`
(`TypeError` on the call) are caught and re-raised as the missing-scheduler
`AttributeError`. -/
def ComputeEnvironment.get_scheduler (env : Env) : Except PyErr SchedulerType :=
  match env.scheduler_type with
  | some st => Except.ok st
  | none =>
      Except.error (PyErr.attributeError "You must define a scheduler type for every environment")

/-- `ComputeEnvironment.submit`: rewind the script, obtain the scheduler and
hand the script off to the driver's `submit`; the external driver behaviour is
a parameter `driver` mapping the scheduler variant and the script text to the
accept/decline boolean. Returns `JobStatus.submitted` on acceptance and
`None` (modelled `Option.none`) on decline. -/
def ComputeEnvironment.submit (driver : SchedulerType → String → Bool) (env : Env)
    (script : JobScript) : Except PyErr (Option JobStatus) :=
  match ComputeEnvironment.get_scheduler env with
  | Except.error e => Except.error e
  | Except.ok st =>
      Except.ok (if driver st script.content then some JobStatus.submitted else none)

/-- `UnknownEnvironment`: `scheduler_type = None`, `is_present` always true. -/
def UnknownEnvironment : Env :=
  ⟨"UnknownEnvironment", none, none, fun _ => true, base_rules,
    ComputeEnvironment.script base_rules⟩

/-- Python's string comparison, used by `sorted`: code-point lexicographic
order on the character sequences. -/
def charListLe : List Char → List Char → Bool
  | [], _ => true
  | _ :: _, [] => false
  | a :: as, b :: bs =>
    if a.toNat = b.toNat then charListLe as bs
    else if a.toNat < b.toNat then true else false

theorem char_toNat_inj {a b : Char} (h : a.toNat = b.toNat) : a = b :=
  Char.ext (UInt32.ext h)

theorem string_data_inj {a b : String} (h : a.data = b.data) : a = b := by
  cases a
  cases b
  exact congrArg String.mk h

theorem charListLe_head_lt {a b : Char} {as bs : List Char}
    (h : charListLe (a :: as) (b :: bs) = true) (hne : a.toNat ≠ b.toNat) :
    a.toNat < b.toNat := by
  simp only [charListLe, if_neg hne] at h
  by_contra hc
  rw [if_neg hc] at h
  exact Bool.noConfusion h

theorem charListLe_tail {a b : Char} {as bs : List Char}
    (h : charListLe (a :: as) (b :: bs) = true) (he : a.toNat = b.toNat) :
    charListLe as bs = true := by
  simpa only [charListLe, if_pos he] using h

theorem charListLe_cons_eq {a b : Char} {as bs : List Char} (he : a.toNat = b.toNat)
    (h : charListLe as bs = true) : charListLe (a :: as) (b :: bs) = true := by
  simp only [charListLe, if_pos he]
  exact h

theorem charListLe_cons_lt {a b : Char} (as bs : List Char) (hlt : a.toNat < b.toNat) :
    charListLe (a :: as) (b :: bs) = true := by
  simp only [charListLe, if_neg (by omega : ¬ a.toNat = b.toNat), if_pos hlt]

theorem charListLe_total : ∀ as bs, charListLe as bs = true ∨ charListLe bs as = true := by
  intro as
  induction as with
  | nil => intro bs; left; rfl
  | cons a as ih =>
    intro bs
    cases bs with
    | nil => right; rfl
    | cons b bs =>
      by_cases h1 : a.toNat = b.toNat
      · rcases ih bs with h | h
        · exact Or.inl (charListLe_cons_eq h1 h)
        · exact Or.inr (charListLe_cons_eq h1.symm h)
      · by_cases h2 : a.toNat < b.toNat
        · exact Or.inl (charListLe_cons_lt as bs h2)
        · exact Or.inr (charListLe_cons_lt bs as (by omega))

theorem charListLe_trans : ∀ as bs cs, charListLe as bs = true → charListLe bs cs = true →
    charListLe as cs = true := by
  intro as
  induction as with
  | nil => intro bs cs _ _; rfl
  | cons a as ih =>
    intro bs cs h1 h2
    cases bs with
    | nil => exact absurd h1 (by simp [charListLe])
    | cons b bs =>
      cases cs with
      | nil => exact absurd h2 (by simp [charListLe])
      | cons c cs =>
        by_cases hab : a.toNat = b.toNat
        · by_cases hbc : b.toNat = c.toNat
          · exact charListLe_cons_eq (hab.trans hbc)
              (ih bs cs (charListLe_tail h1 hab) (charListLe_tail h2 hbc))
          · have := charListLe_head_lt h2 hbc
            exact charListLe_cons_lt as cs (by omega)
        · have hlt1 := charListLe_head_lt h1 hab
          by_cases hbc : b.toNat = c.toNat
          · exact charListLe_cons_lt as cs (by omega)
          · have hlt2 := charListLe_head_lt h2 hbc
            exact charListLe_cons_lt as cs (by omega)

theorem charListLe_antisymm : ∀ as bs, charListLe as bs = true → charListLe bs as = true →
    as = bs := by
  intro as
  induction as with
  | nil =>
    intro bs _ h2
    cases bs with
    | nil => rfl
    | cons b bs => exact absurd h2 (by simp [charListLe])
  | cons a as ih =>
    intro bs h1 h2
    cases bs with
    | nil => exact absurd h1 (by simp [charListLe])
    | cons b bs =>
      by_cases hab : a.toNat = b.toNat
      · rw [char_toNat_inj hab,
          ih bs (charListLe_tail h1 hab) (charListLe_tail h2 hab.symm)]
      · have hlt1 := charListLe_head_lt h1 hab
        have hlt2 := charListLe_head_lt h2 (by omega)
        omega

/-- The relation by which `sorted` orders the keyword keys. -/
@[reducible] def strLe (a b : String) : Prop := charListLe a.data b.data = true

instance : DecidableRel strLe := fun a b =>
  inferInstanceAs (Decidable (charListLe a.data b.data = true))

instance : IsTotal String strLe := ⟨fun a b => charListLe_total a.data b.data⟩

instance : IsTrans String strLe :=
  ⟨fun a b c h h' => charListLe_trans a.data b.data c.data h h'⟩

instance : IsAntisymm String strLe :=
  ⟨fun a b h h' => string_data_inj (charListLe_antisymm a.data b.data h h')⟩

/-- `sorted(kwargs)`: the keys of the keyword dictionary in ascending order. -/
def sortedKeys (kwargs : List (String × String)) : List String :=
  List.insertionSort strLe (kwargs.map Prod.fst)

/-- `TestEnvironment.script`: build the base script, then write one line
`#TEST key=value` per keyword option, iterating the keys in sorted order and
reading `kwargs[key]` (always present, so the `Option.getD` default is never
used). -/
def TestEnvironment.script (kwargs : List (String × String)) : JobScript :=
  (sortedKeys kwargs).foldl
    (fun js key => js.writeline ("#TEST " ++ key ++ "=" ++ (List.lookup key kwargs).getD ""))
    (ComputeEnvironment.script base_rules kwargs)

/-- `TestEnvironment`: `scheduler_type = FakeScheduler`, `is_present` always
true, `script` writes the sorted marker lines. -/
def TestEnvironment : Env :=
  ⟨"TestEnvironment", none, some SchedulerType.fake, fun _ => true, base_rules,
    TestEnvironment.script⟩

/-- `TorqueEnvironment`. -/
def TorqueEnvironment : Env :=
  mkBaseEnv "TorqueEnvironment" none (some SchedulerType.torque)

/-- `MoabEnvironment` (deprecated, kept for backwards compatibility). -/
def MoabEnvironment : Env :=
  mkBaseEnv "MoabEnvironment" none (some SchedulerType.torque)

/-- `SlurmEnvironment`. -/
def SlurmEnvironment : Env :=
  mkBaseEnv "SlurmEnvironment" none (some SchedulerType.slurm)

/-- `CPUEnvironment` (no class body: inherits everything, defines no
`scheduler_type` attribute). -/
def CPUEnvironment : Env := mkBaseEnv "CPUEnvironment" none none

/-- `GPUEnvironment` (no class body). -/
def GPUEnvironment : Env := mkBaseEnv "GPUEnvironment" none none

/-- The registry as populated by the metaclass when `flow/environment.py`
finishes loading: every subclass of `ComputeEnvironment`, in declaration
order (`ComputeEnvironment` itself is not registered). -/
def module_registry : List Env :=
  [UnknownEnvironment, TestEnvironment, TorqueEnvironment, MoabEnvironment,
   SlurmEnvironment, CPUEnvironment, GPUEnvironment]

/-- `get_environment(test)`: iterate the registered classes in reversed
declaration order and return the first whose `is_present()` is true;
otherwise return `UnknownEnvironment`. The `test` parameter is accepted but
never read by the body. -/
def get_environment (test : Bool) (registry : List Env) (hostname : String) : Env :=
  match registry.reverse.find? (fun e => e.is_present hostname) with
  | some e => e
  | none => UnknownEnvironment

/-- Python values that can appear in the configuration store and in
`_FLOW_CONFIG_DEFAULTS`: `None`, strings, booleans, integers, floats and
(nested) mappings. -/
inductive PyVal where
  | pyNone
  | str (s : String)
  | boolV (b : Bool)
  | intV (n : Int)
  | floatV (q : Rat)
  | dict (entries : List (String × PyVal))

/-- `_FLOW_CONFIG_DEFAULTS`: the documented schema defaults. This table is
defined by `flow/util/config.py` but consulted by none of its lookup
functions. -/
def FLOW_CONFIG_DEFAULTS : List (String × PyVal) :=
  [("import_packaged_environments", PyVal.boolV true),
   ("status_performance_warn_threshold", PyVal.floatV (1 / 5)),
   ("show_traceback", PyVal.boolV false),
   ("eligible_jobs_max_lines", PyVal.intV 10),
   ("status_parallelization", PyVal.str "none")]

/-- The configuration returned by `config.load_config()`, restricted to what
the excerpt reads: its optional "flow" section, a string-keyed mapping. -/
structure SignacConfig where
  flow : Option (List (String × PyVal))

/-- The empty configuration store: no "flow" section at all. -/
def emptyConfig : SignacConfig := ⟨none⟩

/-- The indexing chain `load_config()["flow"][key]` (or
`load_config()["flow"][ns][key]`): a missing mapping key raises `KeyError`;
indexing a non-mapping value with a string key raises `TypeError`. -/
def config_getitem (cfg : SignacConfig) (ns : Option String) (key : String) :
    Except PyErr PyVal :=
  match cfg.flow with
  | none => Except.error (PyErr.keyError "flow")
  | some fl =>
    match ns with
    | none =>
      match List.lookup key fl with
      | some v => Except.ok v
      | none => Except.error (PyErr.keyError key)
    | some n =>
      match List.lookup n fl with
      | none => Except.error (PyErr.keyError n)
      | some (PyVal.dict m) =>
        match List.lookup key m with
        | some v => Except.ok v
        | none => Except.error (PyErr.keyError key)
      | some _ => Except.error PyErr.typeError

/-- `require_config_value(key, ns, default)`: look the key up under the
"flow" section (optionally nested under `ns`); on `KeyError` return the
caller-supplied default when one was given (`default = some d`; the sentinel
`_GET_CONFIG_VALUE_NONE` meaning "no default" is modelled by
`default = none`), otherwise raise `ConfigKeyError` naming the fully
qualified key. -/
def require_config_value (cfg : SignacConfig) (key : String) (ns : Option String)
    (default : Option PyVal) : Except PyErr PyVal :=
  match config_getitem cfg ns key with
  | Except.ok v => Except.ok v
  | Except.error (PyErr.keyError _) =>
    match default with
    | some d => Except.ok d
    | none =>
      Except.error (PyErr.configKeyError
        ("flow." ++ (match ns with
                     | none => key
                     | some n => n ++ "." ++ key)))
  | Except.error e => Except.error e

/-- `get_config_value(key, ns, default)`: forwards to `require_config_value`
with its `default` parameter, whose own default value is Python `None` — an
actual value, not the sentinel, so this function never raises
`ConfigKeyError`. -/
def get_config_value (cfg : SignacConfig) (key : String) (ns : Option String)
    (default : PyVal) : Except PyErr PyVal :=
  require_config_value cfg key ns (some default)

/-! ### Helper lemmas -/

/-- `find?` skips a prefix on which the predicate is everywhere false. -/
theorem find?_append_of_left_none {α : Type} {p : α → Bool} {xs : List α}
    (h : ∀ x ∈ xs, p x = false) (ys : List α) :
    (xs ++ ys).find? p = ys.find? p := by
  rw [List.find?_append]
  have hx : xs.find? p = none := by
    rw [List.find?_eq_none]
    intro x hxm
    simp [h x hxm]
  rw [hx, Option.none_or]

/-! ### Claims -/

/-- C10: the result of `get_environment` is independent of its `test`
parameter — the parameter is accepted but never read, so for every registry
state and host name the two calls return the same descriptor. -/
theorem get_environment_ignores_test (t₁ t₂ : Bool) (registry : List Env) (host : String) :
    get_environment t₁ registry host = get_environment t₂ registry host := rfl

/-- C6: calling `submit` on the fallback descriptor `UnknownEnvironment`,
whose scheduler variant is undefined, raises the missing-scheduler
`AttributeError` for every possible scheduler driver behaviour — in
particular the result never depends on, and hence never invokes, any
driver's `submit`. -/
theorem submit_unknown_env_raises (driver : SchedulerType → String → Bool) (js : JobScript) :
    ComputeEnvironment.submit driver UnknownEnvironment js =
      Except.error (PyErr.attributeError
        "You must define a scheduler type for every environment") := rfl

/-- C9: `MoabEnvironment` is a pure alias of `TorqueEnvironment`: the two
descriptors declare the same scheduler variant, resolve to the same scheduler
driver, and have equal `script`, command-wrapping and `submit` behaviours. -/
theorem moab_is_alias_of_torque :
    MoabEnvironment.scheduler_type = TorqueEnvironment.scheduler_type ∧
    ComputeEnvironment.get_scheduler MoabEnvironment =
      ComputeEnvironment.get_scheduler TorqueEnvironment ∧
    MoabEnvironment.script = TorqueEnvironment.script ∧
    MoabEnvironment.rules = TorqueEnvironment.rules ∧
    MoabEnvironment.is_present = TorqueEnvironment.is_present ∧
    (∀ (driver : SchedulerType → String → Bool) (js : JobScript),
      ComputeEnvironment.submit driver MoabEnvironment js =
        ComputeEnvironment.submit driver TorqueEnvironment js) :=
  ⟨rfl, rfl, rfl, rfl, rfl, fun _ _ => rfl⟩

/-- C5: `write_cmd` applies the parallel-launch wrapping before the
background wrapping, never the reverse: with `np > 1` and `bg = true` the
line written is the background wrapping of the parallel-launch wrapping of
the command, followed by one line terminator. -/
theorem write_cmd_wrap_order (rules : EnvCmdRules) (f : String → Nat → String)
    (content cmd : String) (np : Nat) (hf : rules.mpi_cmd = some f) (hnp : 1 < np) :
    JobScript.write_cmd ⟨rules, content⟩ cmd np true =
      Except.ok ⟨rules, content ++ (rules.bg (f cmd np) ++ "\n")⟩ := by
  unfold JobScript.write_cmd
  rw [if_pos hnp, hf]
  rfl

/-- The parallel wrapper of the claim's example: `mpirun -np <np> <cmd>`. -/
def mpirunWrap (cmd : String) (np : Nat) : String :=
  "mpirun -np " ++ toString np ++ " " ++ cmd

/-- Witness for C5 at the claim's example: `write_cmd("run", np=4, bg=True)`
writes exactly `mpirun -np 4 run &` followed by the line terminator. -/
theorem write_cmd_wrap_order_witness :
    JobScript.write_cmd ⟨⟨some mpirunWrap, ComputeEnvironment.bg⟩, ""⟩ "run" 4 true =
      Except.ok ⟨⟨some mpirunWrap, ComputeEnvironment.bg⟩, "mpirun -np 4 run &\n"⟩ :=
  write_cmd_wrap_order ⟨some mpirunWrap, ComputeEnvironment.bg⟩ mpirunWrap "" "run" 4 rfl
    (by decide)

/-- C4 counterexample: on a `JobScript` bound to `UnknownEnvironment` (or to
any descriptor of this excerpt, none of which defines `mpi_cmd`), `write_cmd`
with the well-formed parallelism degree `np = 2 ≥ 1` raises `AttributeError`
instead of completing. -/
theorem write_cmd_np2_raises :
    (UnknownEnvironment.script []).write_cmd "run" 2 false =
      Except.error (PyErr.attributeError "mpi_cmd") ∧
    1 ≤ 2 := ⟨rfl, by decide⟩

/-- C4 amended: `writeline` is total by construction, and `write_cmd`
completes without raising whenever `np ≤ 1`, or whenever the parent
environment does define a parallel-launch wrapper `mpi_cmd`; with `np > 1` it
raises `AttributeError` on the descriptors of this excerpt, which define
none. -/
theorem write_cmd_safe (js : JobScript) (cmd : String) (np : Nat) (bg : Bool)
    (h : np ≤ 1 ∨ js.parent.mpi_cmd.isSome = true) :
    (js.write_cmd cmd np bg).isOk = true := by
  unfold JobScript.write_cmd
  rcases h with h | h
  · rw [if_neg (by omega)]
    rfl
  · rcases hm : js.parent.mpi_cmd with _ | f
    · rw [hm] at h
      simp at h
    · by_cases hnp : np > 1
      · rw [if_pos hnp]
        rfl
      · rw [if_neg hnp]
        rfl

/-- Witness for C4 amended: `write_cmd("run", np=1, bg=True)` on a script of
the fallback descriptor completes. -/
theorem write_cmd_safe_witness :
    (((UnknownEnvironment.script []).write_cmd "run" 1 true).isOk = true) :=
  write_cmd_safe (UnknownEnvironment.script []) "run" 1 true (Or.inl (by decide))

/-- C7: `require_config_value` on a missing key returns the caller-supplied
default when one was given, and otherwise raises `ConfigKeyError` naming the
fully qualified key: `flow.<ns>.<key>` when a namespace is given and
`flow.<key>` otherwise. -/
theorem require_config_value_missing_key (cfg : SignacConfig) (key : String)
    (ns : Option String) (d : PyVal) (k : String)
    (h : config_getitem cfg ns key = Except.error (PyErr.keyError k)) :
    require_config_value cfg key ns (some d) = Except.ok d ∧
    require_config_value cfg key ns none =
      Except.error (PyErr.configKeyError
        (match ns with
         | none => "flow." ++ key
         | some n => "flow." ++ n ++ "." ++ key)) := by
  unfold require_config_value
  rw [h]
  refine ⟨rfl, ?_⟩
  cases ns with
  | none => rfl
  | some n => simp [String.append_assoc]

/-- Witness for C7 at the spec's example: on the empty store,
`require_config_value("status_parallelization")` returns a caller default
when given and otherwise raises `ConfigKeyError` naming
`flow.status_parallelization`. -/
theorem require_config_value_missing_key_witness :
    require_config_value emptyConfig "status_parallelization" none (some (PyVal.str "x")) =
      Except.ok (PyVal.str "x") ∧
    require_config_value emptyConfig "status_parallelization" none none =
      Except.error (PyErr.configKeyError "flow.status_parallelization") :=
  require_config_value_missing_key emptyConfig "status_parallelization" none
    (PyVal.str "x") "flow" rfl

/-- C3 counterexample: on the empty configuration store,
`get_config_value("status_parallelization")` with no caller default returns
Python `None` — not the string `"none"` that `_FLOW_CONFIG_DEFAULTS`
documents for that key. -/
theorem get_config_value_returns_pyNone :
    get_config_value emptyConfig "status_parallelization" none PyVal.pyNone =
      Except.ok PyVal.pyNone ∧
    List.lookup "status_parallelization" FLOW_CONFIG_DEFAULTS = some (PyVal.str "none") ∧
    (Except.ok PyVal.pyNone : Except PyErr PyVal) ≠ Except.ok (PyVal.str "none") := by
  refine ⟨rfl, rfl, ?_⟩
  intro h
  injection h with h'
  exact PyVal.noConfusion h'

/-- C3 amended: on the empty configuration store `get_config_value` returns
its `default` argument, whose own default value is Python `None`; the
`_FLOW_CONFIG_DEFAULTS` table is never consulted. -/
theorem get_config_value_empty_store (key : String) (ns : Option String) (d : PyVal) :
    get_config_value emptyConfig key ns d = Except.ok d := rfl

/-- C1 counterexample: in the registry state left by loading
`flow/environment.py`, no descriptor's `hostname_pattern` matches the host
`"x"` (every pattern is `None`), yet `get_environment` returns
`TestEnvironment` — whose overriding `is_present` is unconditionally true and
which precedes `UnknownEnvironment` in the reversed iteration — and not the
fallback `UnknownEnvironment`. -/
theorem get_environment_no_pattern_match_not_unknown :
    module_registry.all (fun e => e.hostname_pattern.isNone) = true ∧
    get_environment false module_registry "x" = TestEnvironment ∧
    TestEnvironment.name ≠ UnknownEnvironment.name := by
  refine ⟨rfl, rfl, ?_⟩
  decide

/-- C1 amended: for every registry state in which no registered descriptor's
`is_present()` is true on the current host (in particular no pattern matches
and no always-present descriptor such as `TestEnvironment` is registered),
`get_environment` returns the fallback `UnknownEnvironment`, whose
`is_present()` is true. -/
theorem get_environment_fallback (test : Bool) (registry : List Env) (host : String)
    (h : ∀ e ∈ registry, e.is_present host = false) :
    get_environment test registry host = UnknownEnvironment ∧
    UnknownEnvironment.is_present host = true := by
  refine ⟨?_, rfl⟩
  unfold get_environment
  have hfind : registry.reverse.find? (fun e => e.is_present host) = none := by
    rw [List.find?_eq_none]
    intro e he
    simp [h e (List.mem_reverse.mp he)]
  rw [hfind]

/-- Witness for C1 amended: a registry holding only pattern-based descriptors
whose patterns are unset falls back to `UnknownEnvironment`. -/
theorem get_environment_fallback_witness :
    get_environment false [TorqueEnvironment, SlurmEnvironment] "x" = UnknownEnvironment ∧
    UnknownEnvironment.is_present "x" = true :=
  get_environment_fallback false [TorqueEnvironment, SlurmEnvironment] "x" (by decide)

/-- C2: `get_environment` iterates the registry in reverse declaration order
and returns the first descriptor whose `is_present()` is true: for any two
registered descriptors A (registered earlier) and B (registered later, with
nothing presenting after it) that both detect the current host, it returns
B. -/
theorem get_environment_later_registration_wins (test : Bool) (host : String)
    (l₁ l₂ l₃ : List Env) (A B : Env)
    (hA : A.is_present host = true) (hB : B.is_present host = true)
    (h₃ : ∀ e ∈ l₃, e.is_present host = false) :
    get_environment test (l₁ ++ A :: l₂ ++ B :: l₃) host = B := by
  unfold get_environment
  have h1 : (l₁ ++ A :: l₂ ++ B :: l₃).reverse =
      l₃.reverse ++ B :: (l₂.reverse ++ A :: l₁.reverse) := by
    simp
  rw [h1, find?_append_of_left_none (fun e he => h₃ e (List.mem_reverse.mp he))]
  have h2 : List.find? (fun e => e.is_present host) (B :: (l₂.reverse ++ A :: l₁.reverse)) =
      some B := List.find?_cons_of_pos _ hB
  rw [h2]

/-- A user-defined environment class "A" whose pattern matches host `x1`,
registered before `EnvB`. -/
def EnvA : Env := mkBaseEnv "A" (some "x1") none

/-- A user-defined environment class "B" whose pattern also matches host
`x1`, registered after `EnvA`. -/
def EnvB : Env := mkBaseEnv "B" (some "x1") none

/-- Witness for C2: registering `EnvA` then `EnvB` after the module's
built-in descriptors, both of whose patterns match host `x1`, makes
`get_environment` return `EnvB`. -/
theorem get_environment_later_registration_wins_witness :
    get_environment false (module_registry ++ EnvA :: [] ++ EnvB :: []) "x1" = EnvB :=
  get_environment_later_registration_wins false "x1" module_registry [] [] EnvA EnvB
    (by decide) (by decide) (by decide)

/-- Concatenation of a list of lines (each already ending in the
terminator). -/
def concatLines (l : List String) : String := l.foldr (fun a b => a ++ b) ""

/-- The ordering of keyword pairs by their keys. -/
@[reducible] def pairLe (p q : String × String) : Prop := strLe p.1 q.1

instance : DecidableRel pairLe := fun p q => inferInstanceAs (Decidable (strLe p.1 q.1))

instance : IsTotal (String × String) pairLe :=
  ⟨fun p q => charListLe_total p.1.data q.1.data⟩

instance : IsTrans (String × String) pairLe :=
  ⟨fun p q r h h' => charListLe_trans p.1.data q.1.data r.1.data h h'⟩

/-- Folding `writeline` over a list of lines appends each line plus the
terminator to the buffer and leaves the parent untouched. -/
theorem foldl_writeline (m : String → String) :
    ∀ (ks : List String) (js : JobScript),
      ks.foldl (fun js k => js.writeline (m k)) js =
        ⟨js.parent, js.content ++ concatLines (ks.map fun k => m k ++ "\n")⟩ := by
  intro ks
  induction ks with
  | nil =>
    intro js
    cases js with
    | mk p c => simp [concatLines, String.append_empty]
  | cons k ks ih =>
    intro js
    rw [List.foldl_cons, ih]
    cases js with
    | mk p c =>
      simp [JobScript.writeline, JobScript.write, JobScript.eol, concatLines,
        String.append_assoc]

/-- Dictionary lookup is invariant under permutation of an association list
with pairwise-distinct keys. -/
theorem lookup_perm_of_nodup_keys (k : String) {l₁ l₂ : List (String × String)}
    (p : l₁.Perm l₂) :
    (l₁.map Prod.fst).Nodup → List.lookup k l₁ = List.lookup k l₂ := by
  induction p with
  | nil => intro _; rfl
  | cons x t ih =>
    intro nd
    rcases x with ⟨a, b⟩
    rw [List.map_cons] at nd
    simp only [List.lookup]
    rcases h : (k == a) with _ | _
    · exact ih (List.nodup_cons.mp nd).2
    · rfl
  | swap x y t =>
    intro nd
    rcases x with ⟨a, b⟩
    rcases y with ⟨c, d⟩
    rw [List.map_cons, List.map_cons] at nd
    have hne : c ≠ a := fun he =>
      (List.nodup_cons.mp nd).1 (by rw [he]; exact List.mem_cons_self a _)
    simp only [List.lookup]
    rcases h1 : (k == c) with _ | _ <;> rcases h2 : (k == a) with _ | _
    · rfl
    · rfl
    · rfl
    · exact absurd ((eq_of_beq h1).symm.trans (eq_of_beq h2)) hne
  | trans p₁ p₂ ih₁ ih₂ =>
    intro nd
    exact (ih₁ nd).trans (ih₂ (((p₁.map Prod.fst).nodup_iff).mp nd))

/-- In an association list with pairwise-distinct keys, lookup of the key of
a member pair finds that pair's value. -/
theorem lookup_eq_some_of_mem :
    ∀ {l : List (String × String)}, (l.map Prod.fst).Nodup →
      ∀ {k v : String}, (k, v) ∈ l → List.lookup k l = some v := by
  intro l
  induction l with
  | nil => intro _ k v hm; cases hm
  | cons x t ih =>
    intro nd k v hm
    rcases x with ⟨a, b⟩
    rw [List.map_cons] at nd
    rcases List.mem_cons.mp hm with he | hm
    · injection he with h1 h2
      subst h1
      subst h2
      simp [List.lookup]
    · have hka : k ≠ a := by
        intro he
        exact (List.nodup_cons.mp nd).1 (he ▸ (List.mem_map.mpr ⟨(k, v), hm, rfl⟩))
      have hb : (k == a) = false := beq_false_of_ne hka
      simp only [List.lookup, hb]
      exact ih (List.nodup_cons.mp nd).2 hm

/-- The key list of the key-sorted pair list is the sorted key list. -/
theorem map_fst_insertionSort (l : List (String × String)) :
    (List.insertionSort pairLe l).map Prod.fst = sortedKeys l := by
  have hs1 : List.Sorted strLe ((List.insertionSort pairLe l).map Prod.fst) :=
    List.Pairwise.map Prod.fst (fun _ _ h => h) (List.sorted_insertionSort pairLe l)
  have hs2 : List.Sorted strLe (sortedKeys l) :=
    List.sorted_insertionSort strLe (l.map Prod.fst)
  exact List.eq_of_perm_of_sorted
    (((List.perm_insertionSort pairLe l).map Prod.fst).trans
      (List.perm_insertionSort strLe (l.map Prod.fst)).symm) hs1 hs2

/-- A key-sorted pair list with pairwise-distinct keys is strictly sorted by
key. -/
theorem sorted_strict_of_nodup_keys {s : List (String × String)}
    (hs : List.Sorted pairLe s) (nd : (s.map Prod.fst).Nodup) :
    List.Pairwise (fun p q : String × String => pairLe p q ∧ p.1 ≠ q.1) s := by
  have h1 : List.Pairwise (fun p q : String × String => p.1 ≠ q.1) s :=
    List.pairwise_map.mp nd
  exact hs.and h1

/-- Key-sorting two permuted pair lists with pairwise-distinct keys yields
the same list. -/
theorem insertionSort_perm_eq {kw kw' : List (String × String)}
    (nd : (kw.map Prod.fst).Nodup) (hp : kw.Perm kw') :
    List.insertionSort pairLe kw = List.insertionSort pairLe kw' := by
  haveI : IsAntisymm (String × String) (fun p q : String × String => pairLe p q ∧ p.1 ≠ q.1) :=
    ⟨fun p q h h' =>
      absurd (string_data_inj (charListLe_antisymm p.1.data q.1.data h.1 h'.1)) h.2⟩
  have hperm : (List.insertionSort pairLe kw).Perm (List.insertionSort pairLe kw') :=
    (List.perm_insertionSort pairLe kw).trans
      (hp.trans (List.perm_insertionSort pairLe kw').symm)
  have nds : ((List.insertionSort pairLe kw).map Prod.fst).Nodup :=
    (((List.perm_insertionSort pairLe kw).map Prod.fst).nodup_iff).mpr nd
  have nds' : ((List.insertionSort pairLe kw').map Prod.fst).Nodup :=
    (((List.perm_insertionSort pairLe kw').map Prod.fst).nodup_iff).mpr
      (((hp.map Prod.fst).nodup_iff).mp nd)
  exact List.eq_of_perm_of_sorted hperm
    (sorted_strict_of_nodup_keys (List.sorted_insertionSort pairLe kw) nds)
    (sorted_strict_of_nodup_keys (List.sorted_insertionSort pairLe kw') nds')

/-- With pairwise-distinct keys, the test script is the empty base script
followed by the marker lines of the key-sorted option pairs. -/
theorem testenv_script_content (kwargs : List (String × String))
    (nd : (kwargs.map Prod.fst).Nodup) :
    TestEnvironment.script kwargs =
      ⟨base_rules, concatLines ((List.insertionSort pairLe kwargs).map
        (fun p => "#TEST " ++ p.1 ++ "=" ++ p.2 ++ "\n"))⟩ := by
  unfold TestEnvironment.script
  rw [foldl_writeline]
  simp only [ComputeEnvironment.script]
  rw [String.empty_append]
  congr 1
  rw [← map_fst_insertionSort kwargs, List.map_map]
  apply congrArg
  apply List.map_congr_left
  intro p hp
  have hmem : p ∈ kwargs := ((List.perm_insertionSort pairLe kwargs).mem_iff).mp hp
  have hlook : List.lookup p.1 kwargs = some p.2 := by
    rcases p with ⟨k, v⟩
    exact lookup_eq_some_of_mem nd hmem
  simp [Function.comp, hlook]

/-- C8: for keyword options with pairwise-distinct keys (as Python keyword
arguments always are), the test descriptor's `script` writes exactly one
marker line `#TEST key=value` per option (the line list is a permutation of
the option list), ordered by key, and the resulting script is independent of
the order in which the options were passed. -/
theorem testenv_script_sorted_markers (kw kw' : List (String × String))
    (nd : (kw.map Prod.fst).Nodup) (hp : kw.Perm kw') :
    TestEnvironment.script kw = TestEnvironment.script kw' ∧
    (TestEnvironment.script kw).content =
      concatLines ((List.insertionSort pairLe kw).map
        (fun p => "#TEST " ++ p.1 ++ "=" ++ p.2 ++ "\n")) ∧
    (List.insertionSort pairLe kw).Perm kw ∧
    List.Sorted pairLe (List.insertionSort pairLe kw) := by
  have nd' : (kw'.map Prod.fst).Nodup := ((hp.map Prod.fst).nodup_iff).mp nd
  refine ⟨?_, ?_, List.perm_insertionSort pairLe kw, List.sorted_insertionSort pairLe kw⟩
  · rw [testenv_script_content kw nd, testenv_script_content kw' nd',
      insertionSort_perm_eq nd hp]
  · rw [testenv_script_content kw nd]

/-- Witness for C8 at the spec's example: `script(beta=2, alpha=1)` equals
`script(alpha=1, beta=2)`, and its content is the key-sorted marker lines
(alpha before beta). -/
theorem testenv_script_sorted_markers_witness :
    TestEnvironment.script [("beta", "2"), ("alpha", "1")] =
      TestEnvironment.script [("alpha", "1"), ("beta", "2")] ∧
    (TestEnvironment.script [("beta", "2"), ("alpha", "1")]).content =
      concatLines ((List.insertionSort pairLe [("beta", "2"), ("alpha", "1")]).map
        (fun p => "#TEST " ++ p.1 ++ "=" ++ p.2 ++ "\n")) ∧
    (List.insertionSort pairLe [("beta", "2"), ("alpha", "1")]).Perm
      [("beta", "2"), ("alpha", "1")] ∧
    List.Sorted pairLe (List.insertionSort pairLe [("beta", "2"), ("alpha", "1")]) :=
  testenv_script_sorted_markers [("beta", "2"), ("alpha", "1")]
    [("alpha", "1"), ("beta", "2")] (by decide) (by decide)
